import Mathlib

/-!
# Verification of the Billabex NetSuite connector's synchronization core

This file shallowly embeds the synchronization and reconciliation engine of
the `billabex/netsuite-connector` repository and proves (or refutes)
the frozen specification claims about it.

Embedded source files:
* `libs/sync.js` — date helpers, reconciliation rules (`invoiceHasChanged`,
  `creditNoteHasChanged`), entity synchronizers (`syncAccount`, `syncContact`,
  `syncInvoice`, `syncCreditMemo`), delete helpers, `enqueueSync`,
  `enqueueDelete`.
* `libs/billabex-api.js` — `BillabexApiClient.#request` (token gate, 429
  retry loop, 401 reload-and-retry, error taxonomy).
* `libs/components.js` (connection) — `Connection.isAccessTokenValid`.
* `process_sync_queue.js` — queue entry selection and retry bookkeeping.
* `ue_invoice.js`, `ue_customer_payment.js` — top-level user-event handlers.

JS numbers that the code only compares for equality or subtracts are
modelled as `Int`.  NetSuite record internal ids and Billabex UUIDs are
modelled as `Nat`.  Remote servers are modelled as association lists from
remote id to the stored snapshot, with a fresh-id counter.
-/

namespace Billabex

/-! ## Dates (sync.js `toDateValue`, `datesEqual`) -/

/-- A Billabex `DateValueResponseDto`: `{ year, month, day }`. -/
structure DateValue where
  year : Int
  month : Int
  day : Int
deriving DecidableEq, Repr

/-- A NetSuite date value as consumed by `toDateValue`.  `parseable` models
whether `new Date(x).getTime()` is `NaN`; `msWithinDay` is the time-of-day
component that `toDateValue` discards (it keeps only year/month/day). -/
structure NsDate where
  parseable : Bool
  year : Int
  month : Int
  day : Int
  msWithinDay : Int
deriving DecidableEq, Repr

/-- `toDateValue(nsDate)`: `null` for a missing or unparseable date,
otherwise the `{year, month, day}` projection. -/
def toDateValue : Option NsDate → Option DateValue
  | none => none
  | some d => if d.parseable then some ⟨d.year, d.month, d.day⟩ else none

/-- `datesEqual(bbxDate, nsDate)` from sync.js. -/
def datesEqual (bbxDate : Option DateValue) (nsDate : Option NsDate) : Bool :=
  match bbxDate, nsDate with
  | none, none => true
  | none, some _ => false
  | some _, none => false
  | some b, some nd =>
    match toDateValue (some nd) with
    | none => false
    | some n => b.year == n.year && b.month == n.month && b.day == n.day

/-- A date field is either absent or a parseable date.  NetSuite record date
fields are real `Date` objects (never `Invalid Date`), so this holds for
every value the synchronizers actually read. -/
def nsDateOk : Option NsDate → Bool
  | none => true
  | some d => d.parseable

/-! ## Reconciliation rules (sync.js `invoiceHasChanged`, `creditNoteHasChanged`) -/

/-- The NetSuite invoice values handed to `invoiceHasChanged`
(`{ tranId, total, taxTotal, tranDate, dueDate, poNumber }`). -/
structure InvValues where
  tranId : String
  total : Int
  taxTotal : Int
  tranDate : Option NsDate
  dueDate : Option NsDate
  poNumber : String
deriving DecidableEq, Repr

/-- A Billabex invoice snapshot as returned by `client.invoices.get`. -/
structure BbxInvoice where
  number : String
  totalAmount : Int
  taxAmount : Int
  issuedDate : Option DateValue
  dueDate : Option DateValue
  poNumber : String
  paidAmount : Int
deriving DecidableEq, Repr

/-- `invoiceHasChanged(bbxInvoice, nsValues)` from sync.js.  The
`(x || '')` guards on `poNumber` collapse because both sides are modelled
as plain strings defaulting to `""`. -/
def invoiceHasChanged (bbx : BbxInvoice) (ns : InvValues) : Bool :=
  if bbx.number ≠ ns.tranId then true
  else if bbx.totalAmount ≠ ns.total then true
  else if bbx.taxAmount ≠ ns.taxTotal then true
  else if ¬ datesEqual bbx.issuedDate ns.tranDate then true
  else if ¬ datesEqual bbx.dueDate ns.dueDate then true
  else if bbx.poNumber ≠ ns.poNumber then true
  else false

/-- The NetSuite credit-memo values handed to `creditNoteHasChanged`
(`{ tranId, total, taxTotal, tranDate }`). -/
structure CNValues where
  tranId : String
  total : Int
  taxTotal : Int
  tranDate : Option NsDate
deriving DecidableEq, Repr

/-- A Billabex credit-note snapshot as returned by `client.creditNotes.get`. -/
structure BbxCreditNote where
  number : String
  totalAmount : Int
  taxAmount : Int
  issuedDate : Option DateValue
deriving DecidableEq, Repr

/-- `creditNoteHasChanged(bbxCreditNote, nsValues)` from sync.js. -/
def creditNoteHasChanged (bbx : BbxCreditNote) (ns : CNValues) : Bool :=
  if bbx.number ≠ ns.tranId then true
  else if bbx.totalAmount ≠ ns.total then true
  else if bbx.taxAmount ≠ ns.taxTotal then true
  else if ¬ datesEqual bbx.issuedDate ns.tranDate then true
  else false

/-! ## Synchronizer events

Every remote API call and every local identifier write performed by a
synchronizer is recorded as an event, in issue order.  `invGet`/`cnGet`
are remote reads; `clearLocalId`/`storeLocalId` are the `record.submitFields`
writes of the local remote-identifier field. -/

inductive SyncEvent where
  | accUpdate (id : Nat)
  | accCreate
  | contactUpsert (accountId : Nat)
  | invGet (id : Nat)
  | invDelete (id : Nat)
  | invCreate
  | invUpdatePaid (id : Nat) (amount : Int)
  | cnGet (id : Nat)
  | cnDelete (id : Nat)
  | cnCreate
  | clearLocalId
  | storeLocalId (id : Nat)
deriving DecidableEq, Repr

/-- Remote write calls: create, update, delete and upsert endpoints.
Remote gets and local field writes are not remote writes. -/
def SyncEvent.isRemoteWrite : SyncEvent → Bool
  | .accUpdate _ => true
  | .accCreate => true
  | .contactUpsert _ => true
  | .invDelete _ => true
  | .invCreate => true
  | .invUpdatePaid _ _ => true
  | .cnDelete _ => true
  | .cnCreate => true
  | .invGet _ => false
  | .cnGet _ => false
  | .clearLocalId => false
  | .storeLocalId _ => false

/-- Calls against a create endpoint. -/
def SyncEvent.isCreateCall : SyncEvent → Bool
  | .accCreate => true
  | .invCreate => true
  | .cnCreate => true
  | _ => false

/-- Calls against an update endpoint (`accounts.update`,
`invoices.updatePaidAmount`). -/
def SyncEvent.isUpdateCall : SyncEvent → Bool
  | .accUpdate _ => true
  | .invUpdatePaid _ _ => true
  | _ => false

/-! ## Association-list remote stores -/

/-- Replace the value stored under `k` (the remote `PUT`). -/
def updateAssoc {α : Type} (l : List (Nat × α)) (k : Nat) (v : α) :
    List (Nat × α) :=
  l.map (fun p => if p.1 = k then (k, v) else p)

/-- Remove the entry stored under `k` (the remote `DELETE`). -/
def removeAssoc {α : Type} (l : List (Nat × α)) (k : Nat) : List (Nat × α) :=
  l.filter (fun p => p.1 ≠ k)

/-- The fresh-id counter is above every stored key, so a `create` never
collides with an existing remote object. -/
def assocFresh {α : Type} (l : List (Nat × α)) (next : Nat) : Bool :=
  l.all (fun p => p.1 < next)

/-! ## Account synchronizer (sync.js `syncAccount`)

The local-only field gathering (currency lookup, the two billing-address
lookup methods) is collapsed into the `companyName`/`currencyCode` fields of
the customer snapshot; it issues no remote calls and does not influence the
call sequence or identifier handling. -/

/-- The local customer snapshot read by `syncAccount`.  `bbxId` is the
stored `custentity_bbx_id` remote identifier. -/
structure Customer where
  bbxId : Option Nat
  companyName : String
  currencyCode : String
deriving DecidableEq, Repr

/-- A remote Billabex account as stored by the platform. -/
structure AccRemote where
  fullName : String
  currencyCode : String
deriving DecidableEq, Repr

/-- The remote accounts resource: stored snapshots plus a fresh-id counter. -/
structure AccServer where
  store : List (Nat × AccRemote)
  next : Nat
deriving DecidableEq, Repr

/-- The account payload built from the local customer values. -/
def accPayload (c : Customer) : AccRemote :=
  ⟨c.companyName, c.currencyCode⟩

structure AccSyncResult where
  cust : Customer
  server : AccServer
  events : List SyncEvent
  result : Nat
deriving Repr

/-- `syncAccount(customerId)` from sync.js.  With a stored `bbxId` it issues
`accounts.update`; a 404 answer (the id is not on the server) clears the
local reference and falls through to `accounts.create`, storing the returned
id; with no stored `bbxId` it creates directly. -/
def syncAccount (c : Customer) (s : AccServer) : AccSyncResult :=
  match c.bbxId with
  | some bid =>
    match s.store.lookup bid with
    | some _ =>
      { cust := c
        server := { s with store := updateAssoc s.store bid (accPayload c) }
        events := [.accUpdate bid]
        result := bid }
    | none =>
      let newId := s.next
      { cust := { c with bbxId := some newId }
        server := { store := s.store ++ [(newId, accPayload c)], next := s.next + 1 }
        events := [.accUpdate bid, .clearLocalId, .accCreate, .storeLocalId newId]
        result := newId }
  | none =>
    let newId := s.next
    { cust := { c with bbxId := some newId }
      server := { store := s.store ++ [(newId, accPayload c)], next := s.next + 1 }
      events := [.accCreate, .storeLocalId newId]
      result := newId }

/-! ## Contact synchronizer (sync.js `syncContact`)

The matching logic of `contacts.upsert` is server-side; the synchronizer
always issues exactly one upsert call (after linking the parent account on
demand) and stores the returned contact id when it differs. -/

/-- The local contact snapshot read by `syncContact`. -/
structure NsContact where
  bbxContactId : Option Nat
  fullName : String
  email : Option String
deriving DecidableEq, Repr

structure ContactSyncResult where
  cust : Customer
  contact : NsContact
  accServer : AccServer
  events : List SyncEvent
  result : Nat
deriving Repr

/-- `syncContact(contactId)` from sync.js, for a contact whose parent
customer exists.  The upsert is dispatched to the remote platform; the
returned contact id is modelled as an input (`upsertResultId`) because the
server's email/fuzzy-name matching is out of scope. -/
def syncContact (c : Customer) (ct : NsContact) (s : AccServer)
    (upsertResultId : Nat) : ContactSyncResult :=
  let linked :=
    match c.bbxId with
    | some _ => { cust := c, server := s, events := [], result := 0 : AccSyncResult }
    | none => syncAccount c s
  let bbxAccountId := linked.cust.bbxId.getD 0
  let storeEvents :=
    if ct.bbxContactId = some upsertResultId then []
    else [SyncEvent.storeLocalId upsertResultId]
  { cust := linked.cust
    contact := { ct with bbxContactId := some upsertResultId }
    accServer := linked.server
    events := linked.events ++ [.contactUpsert bbxAccountId] ++ storeEvents
    result := upsertResultId }

/-! ## Invoice synchronizer (sync.js `syncInvoice`) -/

/-- The local invoice snapshot read by `syncInvoice`.  `bbxId` is the stored
`custbody_bbx_invoice_id`.  Amount fields are the `parseFloat(...) || 0`
results. -/
structure InvLocal where
  bbxId : Option Nat
  tranId : String
  tranDate : Option NsDate
  dueDate : Option NsDate
  poNumber : String
  total : Int
  taxTotal : Int
  amountRemaining : Int
deriving DecidableEq, Repr

/-- The values handed to `invoiceHasChanged`. -/
def InvLocal.values (l : InvLocal) : InvValues :=
  ⟨l.tranId, l.total, l.taxTotal, l.tranDate, l.dueDate, l.poNumber⟩

/-- The snapshot the remote platform stores when `invoices.create` is called
with the payload built from the local values (`paidAmount = total −
amountRemaining`). -/
def invPayload (l : InvLocal) : BbxInvoice :=
  { number := l.tranId
    totalAmount := l.total
    taxAmount := l.taxTotal
    issuedDate := toDateValue l.tranDate
    dueDate := toDateValue l.dueDate
    poNumber := l.poNumber
    paidAmount := l.total - l.amountRemaining }

/-- The remote invoices resource. -/
structure InvServer where
  store : List (Nat × BbxInvoice)
  next : Nat
deriving DecidableEq, Repr

/-- `invoices.updatePaidAmount` server effect. -/
def updatePaidAssoc (l : List (Nat × BbxInvoice)) (k : Nat) (amt : Int) :
    List (Nat × BbxInvoice) :=
  l.map (fun p => if p.1 = k then (p.1, { p.2 with paidAmount := amt }) else p)

structure InvSyncResult where
  cust : Customer
  inv : InvLocal
  accServer : AccServer
  invServer : InvServer
  events : List SyncEvent
  result : Nat
deriving Repr

/-- The shared `needsCreate` tail of `syncInvoice`: render the PDF (local),
call `invoices.create` and store the returned id on the invoice record. -/
def invCreateStep (c : Customer) (l : InvLocal) (accS : AccServer)
    (invS : InvServer) (evs : List SyncEvent) : InvSyncResult :=
  let newId := invS.next
  { cust := c
    inv := { l with bbxId := some newId }
    accServer := accS
    invServer := { store := invS.store ++ [(newId, invPayload l)], next := invS.next + 1 }
    events := evs ++ [.invCreate, .storeLocalId newId]
    result := newId }

/-- `syncInvoice(invoiceId)` from sync.js: link the parent account on
demand, fetch the existing remote invoice when a `bbxId` is stored (404
clears the reference and recreates), then decide
changed / paid-amount-only / unchanged. -/
def syncInvoice (c : Customer) (l : InvLocal) (accS : AccServer)
    (invS : InvServer) : InvSyncResult :=
  let linked :=
    match c.bbxId with
    | some _ => { cust := c, server := accS, events := [], result := 0 : AccSyncResult }
    | none => syncAccount c accS
  match l.bbxId with
  | none => invCreateStep linked.cust l linked.server invS linked.events
  | some bid =>
    match invS.store.lookup bid with
    | none =>
      -- `invoices.get` answered 404: clear the stored reference, create new
      invCreateStep linked.cust { l with bbxId := none } linked.server invS
        (linked.events ++ [.invGet bid, .clearLocalId])
    | some bbxInv =>
      if invoiceHasChanged bbxInv l.values then
        -- delete (404 on the delete is ignored) and recreate
        invCreateStep linked.cust l linked.server
          { invS with store := removeAssoc invS.store bid }
          (linked.events ++ [.invGet bid, .invDelete bid])
      else if bbxInv.paidAmount ≠ l.total - l.amountRemaining then
        let paid := l.total - l.amountRemaining
        { cust := linked.cust
          inv := l
          accServer := linked.server
          invServer := { invS with store := updatePaidAssoc invS.store bid paid }
          events := linked.events ++ [.invGet bid, .invUpdatePaid bid paid]
          result := bid }
      else
        { cust := linked.cust
          inv := l
          accServer := linked.server
          invServer := invS
          events := linked.events ++ [.invGet bid]
          result := bid }

/-! ## Credit-memo synchronizer (sync.js `syncCreditMemo`) -/

/-- The local credit-memo snapshot read by `syncCreditMemo`.  `bbxId` is the
stored `custbody_bbx_credit_memo_id`. -/
structure CNLocal where
  bbxId : Option Nat
  tranId : String
  tranDate : Option NsDate
  total : Int
  taxTotal : Int
deriving DecidableEq, Repr

/-- The values handed to `creditNoteHasChanged`. -/
def CNLocal.values (l : CNLocal) : CNValues :=
  ⟨l.tranId, l.total, l.taxTotal, l.tranDate⟩

/-- The snapshot stored remotely by `creditNotes.create`. -/
def cnPayload (l : CNLocal) : BbxCreditNote :=
  { number := l.tranId
    totalAmount := l.total
    taxAmount := l.taxTotal
    issuedDate := toDateValue l.tranDate }

/-- The remote credit-notes resource. -/
structure CNServer where
  store : List (Nat × BbxCreditNote)
  next : Nat
deriving DecidableEq, Repr

structure CNSyncResult where
  cust : Customer
  cn : CNLocal
  accServer : AccServer
  cnServer : CNServer
  events : List SyncEvent
  result : Nat
deriving Repr

/-- The shared `needsCreate` tail of `syncCreditMemo`. -/
def cnCreateStep (c : Customer) (l : CNLocal) (accS : AccServer)
    (cnS : CNServer) (evs : List SyncEvent) : CNSyncResult :=
  let newId := cnS.next
  { cust := c
    cn := { l with bbxId := some newId }
    accServer := accS
    cnServer := { store := cnS.store ++ [(newId, cnPayload l)], next := cnS.next + 1 }
    events := evs ++ [.cnCreate, .storeLocalId newId]
    result := newId }

/-- `syncCreditMemo(creditMemoId)` from sync.js: link the parent account on
demand, fetch the existing remote credit note when a `bbxId` is stored (404
clears the reference and recreates); an unchanged credit note is skipped,
a changed one is deleted (404 on the delete ignored) and recreated. -/
def syncCreditMemo (c : Customer) (l : CNLocal) (accS : AccServer)
    (cnS : CNServer) : CNSyncResult :=
  let linked :=
    match c.bbxId with
    | some _ => { cust := c, server := accS, events := [], result := 0 : AccSyncResult }
    | none => syncAccount c accS
  match l.bbxId with
  | none => cnCreateStep linked.cust l linked.server cnS linked.events
  | some bid =>
    match cnS.store.lookup bid with
    | none =>
      cnCreateStep linked.cust { l with bbxId := none } linked.server cnS
        (linked.events ++ [.cnGet bid, .clearLocalId])
    | some bbxCn =>
      if creditNoteHasChanged bbxCn l.values then
        cnCreateStep linked.cust l linked.server
          { cnS with store := removeAssoc cnS.store bid }
          (linked.events ++ [.cnGet bid, .cnDelete bid])
      else
        { cust := linked.cust
          cn := l
          accServer := linked.server
          cnServer := cnS
          events := linked.events ++ [.cnGet bid]
          result := bid }

/-! ## Sync queue (sync.js `enqueueSync`, `enqueueDelete`)

The queue is the list of `customrecord_bbx_sync_queue` records in creation
order; entry identity is the list position. -/

inductive QStatus where
  | pending
  | processing
  | failed
deriving DecidableEq, Repr

/-- The value stored in `custrecord_bbx_sq_record_id`: a plain string for
sync entries and non-contact deletes, or the `JSON.stringify({accountId,
contactId})` pair stored by contact deletes (the encoding is injective, so
the pair itself is kept). -/
inductive RecId where
  | str (s : String)
  | contactJson (accountId contactId : String)
deriving DecidableEq, Repr

structure QEntry where
  recordType : String
  recordId : RecId
  action : String
  status : QStatus
  retryCount : Option Nat
  lastError : String
deriving DecidableEq, Repr

/-- The `WHERE` clause of `enqueueSync`'s dedup query: same record type and
id, status `pending` or `failed`. -/
def matchesNonTerminal (k : String) (i : RecId) (e : QEntry) : Bool :=
  e.recordType == k && e.recordId == i &&
    (e.status == QStatus.pending || e.status == QStatus.failed)

/-- A freshly created queue entry (status `pending`, retry count 0). -/
def newQEntry (k : String) (i : RecId) (a : String) : QEntry :=
  ⟨k, i, a, .pending, some 0, ""⟩

/-- `record.load(existing[0].id)` + update: rewrite the first entry the
dedup query returns, setting its action and resetting it to `pending`. -/
def updateFirstMatch (k : String) (i : RecId) (a : String) :
    List QEntry → List QEntry
  | [] => []
  | e :: rest =>
    if matchesNonTerminal k i e then
      { e with action := a, status := QStatus.pending } :: rest
    else e :: updateFirstMatch k i a rest

/-- `enqueueSync(recordType, recordId, action)` from sync.js. -/
def enqueueSyncQ (q : List QEntry) (k : String) (i : RecId) (a : String) :
    List QEntry :=
  if q.any (matchesNonTerminal k i) then updateFirstMatch k i a q
  else q ++ [newQEntry k i a]

/-- The record-id value `enqueueDelete` stores. -/
def deleteRecId (recordType bbxId bbxAccountId : String) : RecId :=
  if recordType = "contact" then RecId.contactJson bbxAccountId bbxId
  else RecId.str bbxId

/-- `enqueueDelete(recordType, bbxId, bbxAccountId)` from sync.js: always
creates a fresh queue record — there is no dedup query on this path. -/
def enqueueDeleteQ (q : List QEntry) (recordType bbxId bbxAccountId : String) :
    List QEntry :=
  q ++ [⟨recordType, deleteRecId recordType bbxId bbxAccountId, "delete",
         .pending, some 0, ""⟩]

/-- Number of non-terminal (`pending`/`failed`) entries for a
`(recordType, recordId)` pair. -/
def countNonTerminal (q : List QEntry) (k : String) (i : RecId) : Nat :=
  (q.filter (matchesNonTerminal k i)).length

/-! ## Queue processor (process_sync_queue.js) -/

def MAX_RETRIES : Nat := 5

/-- The selection predicate of the processor's SuiteQL query: status
`pending` or `failed`, and `retry_count IS NULL OR retry_count < 5`. -/
def selectable (e : QEntry) : Bool :=
  (e.status == QStatus.pending || e.status == QStatus.failed) &&
    (e.retryCount.isNone || decide (e.retryCount.getD 0 < MAX_RETRIES))

/-- The failure path of `execute`: `retryCount := parseInt(...)||0 + 1`,
status `failed` once the ceiling is reached else `pending`, error message
truncated to 4000 characters. -/
def failUpdate (e : QEntry) (msg : String) : QEntry :=
  let rc := e.retryCount.getD 0 + 1
  { e with
      retryCount := some rc
      status := if MAX_RETRIES ≤ rc then QStatus.failed else QStatus.pending
      lastError := msg.take 4000 }

/-- One complete run of `execute`: every selected entry is dispatched
(`f e = none` models success, `some msg` a raised error); successes are
deleted, failures get `failUpdate`; unselected entries are untouched. -/
def drainRun (f : QEntry → Option String) (q : List QEntry) : List QEntry :=
  q.filterMap (fun e =>
    if selectable e then
      match f e with
      | none => none
      | some msg => some (failUpdate e msg)
    else some e)

/-- The entries a run selects and dispatches. -/
def dispatchedIn (q : List QEntry) : List QEntry := q.filter selectable

/-- `n` consecutive runs of the queue processor. -/
def drainIter (f : QEntry → Option String) : Nat → List QEntry → List QEntry
  | 0, q => q
  | n + 1, q => drainIter f n (drainRun f q)

/-- Every entry dispatched during `n` consecutive runs. -/
def drainDispatched (f : QEntry → Option String) :
    Nat → List QEntry → List QEntry
  | 0, _ => []
  | n + 1, q => dispatchedIn q ++ drainDispatched f n (drainRun f q)

/-! ## Connection token validity (connection module `isAccessTokenValid`) -/

/-- The fields of a stored `Connection` that the API client's token gate
reads.  `accessExpiresAt` models the stored expiry string: `none` when the
field is absent or empty (JS falsy), `some none` when it is present but
`new Date(...)` yields `NaN`, `some (some t)` when it parses to epoch
millisecond `t`. -/
structure Conn where
  accessToken : Option String
  accessExpiresAt : Option (Option Int)
deriving DecidableEq, Repr

/-- `Connection.isAccessTokenValid(marginMinutes)` evaluated at clock time
`nowMs`: requires a (non-empty) token, a parseable expiry, and
`expiresAt - margin > now`. -/
def isAccessTokenValid (c : Conn) (marginMinutes : Int) (nowMs : Int) : Bool :=
  match c.accessToken, c.accessExpiresAt with
  | none, _ => false
  | some tok, e =>
    if tok = "" then false
    else
      match e with
      | none => false
      | some none => false
      | some (some t) => decide (t - marginMinutes * 60 * 1000 > nowMs)

/-! ## Resilient API client (billabex-api.js `BillabexApiClient.#request`) -/

/-- JS `a || b` on an optional string: the default is used when the value
is absent or empty. -/
def jsOr (s : Option String) (d : String) : String :=
  match s with
  | none => d
  | some m => if m = "" then d else m

/-- One HTTP response.  `retryAfter` is the `parseInt` of the `Retry-After`
header (`none` when the header is absent or not a number); `bodyMessage`
is the `message` field of the parsed JSON body, if any. -/
structure HttpResponse where
  code : Int
  retryAfter : Option Int
  bodyMessage : Option String

/-- `parseInt(getHeader('Retry-After')) || 60`. -/
def parseRetryAfter (h : Option Int) : Int :=
  match h with
  | none => 60
  | some v => if v = 0 then 60 else v

/-- Observable actions of `#request`, in order: connection reloads from
durable storage, HTTP calls (with the bearer token used and a global call
index) and busy-waits. -/
inductive ReqEvent where
  | reload
  | http (token : Option String) (callIdx : Nat)
  | wait (ms : Int)
deriving DecidableEq, Repr

def ReqEvent.isHttp : ReqEvent → Bool
  | .http _ _ => true
  | _ => false

def ReqEvent.isReload : ReqEvent → Bool
  | .reload => true
  | _ => false

/-- The error taxonomy of the client. -/
inductive ReqOutcome where
  | ok
  | tokenExpired
  | rateLimited (retryAfter : Int)
  | apiErr (status : Int) (message : String)
  | otherErr (message : String)
deriving DecidableEq, Repr

/-- The `while (attempt <= maxRetries)` loop of `#request` for a call with
`_isRetryAfter401 = true` (a 401 fails immediately with `TokenExpired`).
`resp` maps the global call index to the response received; `fuel` is
`maxRetries + 1 - attempt`, so the `fuel = 0` case is the dead
`Request failed after max retries` throw after the loop. -/
def httpLoopBase (resp : Nat → HttpResponse) (token : Option String)
    (maxRetries : Nat) : Nat → Nat → Nat → ReqOutcome × List ReqEvent
  | 0, _, _ => (.otherErr "Request failed after max retries", [])
  | fuel + 1, attempt, callIdx =>
    let r := resp callIdx
    if r.code = 429 then
      let ra := parseRetryAfter r.retryAfter
      if maxRetries ≤ attempt then (.rateLimited ra, [.http token callIdx])
      else
        let rest := httpLoopBase resp token maxRetries fuel (attempt + 1) (callIdx + 1)
        (rest.1, .http token callIdx :: .wait (max 1000 (ra * 1000)) :: rest.2)
    else if r.code = 401 then (.tokenExpired, [.http token callIdx])
    else if 400 ≤ r.code then
      (.apiErr r.code (jsOr r.bodyMessage ("API Error " ++ toString r.code)),
        [.http token callIdx])
    else (.ok, [.http token callIdx])

/-- The same loop for the initial call (`_isRetryAfter401 = false`): a 401
reloads the connection from storage and, if the reloaded token is valid,
re-enters `#request` (token gate passes on the freshly validated
connection, so this is `httpLoopBase` with the stored token at attempt 0);
otherwise it fails with `TokenExpired`. -/
def httpLoopFirst (resp : Nat → HttpResponse) (token : Option String)
    (maxRetries : Nat) (stored : Conn) (nowMs : Int) :
    Nat → Nat → Nat → ReqOutcome × List ReqEvent
  | 0, _, _ => (.otherErr "Request failed after max retries", [])
  | fuel + 1, attempt, callIdx =>
    let r := resp callIdx
    if r.code = 429 then
      let ra := parseRetryAfter r.retryAfter
      if maxRetries ≤ attempt then (.rateLimited ra, [.http token callIdx])
      else
        let rest := httpLoopFirst resp token maxRetries stored nowMs fuel
          (attempt + 1) (callIdx + 1)
        (rest.1, .http token callIdx :: .wait (max 1000 (ra * 1000)) :: rest.2)
    else if r.code = 401 then
      if isAccessTokenValid stored 5 nowMs then
        let rest := httpLoopBase resp stored.accessToken maxRetries
          (maxRetries + 1) 0 (callIdx + 1)
        (rest.1, .http token callIdx :: .reload :: rest.2)
      else (.tokenExpired, [.http token callIdx, .reload])
    else if 400 ≤ r.code then
      (.apiErr r.code (jsOr r.bodyMessage ("API Error " ++ toString r.code)),
        [.http token callIdx])
    else (.ok, [.http token callIdx])

/-- `#request`: the token gate (check the current connection's token; on
failure reload from storage once and re-check, failing with `TokenExpired`
before any HTTP call if still invalid) followed by the attempt loop.
`stored` is the connection durable storage returns on a reload. -/
def request (current stored : Conn) (nowMs : Int) (resp : Nat → HttpResponse)
    (maxRetries : Nat) : ReqOutcome × List ReqEvent :=
  if isAccessTokenValid current 5 nowMs then
    httpLoopFirst resp current.accessToken maxRetries stored nowMs
      (maxRetries + 1) 0 0
  else if isAccessTokenValid stored 5 nowMs then
    let res := httpLoopFirst resp stored.accessToken maxRetries stored nowMs
      (maxRetries + 1) 0 0
    (res.1, .reload :: res.2)
  else (.tokenExpired, [.reload])

/-! ## Delete helpers (sync.js `deleteAccount` / `deleteContact` /
`deleteInvoice` / `deleteCreditMemo`) -/

/-- A raised JS error as the delete helpers observe it. -/
structure JsError where
  name : String
  status : Option Int
  message : String
deriving DecidableEq, Repr

/-- Does `l` start with `sub`? -/
def startsWithList : List Char → List Char → Bool
  | _, [] => true
  | [], _ :: _ => false
  | c :: cs, s :: ss => c == s && startsWithList cs ss

/-- Does `l` contain `sub` as a contiguous run? -/
def containsList : List Char → List Char → Bool
  | [], sub => startsWithList [] sub
  | c :: cs, sub => startsWithList (c :: cs) sub || containsList cs sub

/-- JS `String.prototype.includes`: substring containment. -/
def jsIncludes (s sub : String) : Bool :=
  containsList s.toList sub.toList

/-- The `ApiError` thrown by `#request` for an error status: its message is
the parsed body's `message` when present and non-empty, else
`API Error <status>`. -/
def mkApiError (status : Int) (bodyMessage : Option String) : JsError :=
  ⟨"ApiError", some status, jsOr bodyMessage ("API Error " ++ toString status)⟩

/-- The shared catch of the four delete helpers: an error whose *message*
contains the substring `"404"` is swallowed (`// 404 means already
deleted, which is fine`); every other error is re-thrown.  The helpers do
not inspect `e.status`. -/
def deleteOutcome (callResult : Except JsError Unit) : Except JsError Unit :=
  match callResult with
  | .ok _ => .ok ()
  | .error e => if jsIncludes e.message "404" then .ok () else .error e

/-! ## Top-level user-event handlers (ue_invoice.js, ue_customer_payment.js) -/

inductive UEType where
  | create
  | edit
  | delete
  | other
deriving DecidableEq, Repr

/-- A queue write performed by a handler's catch block. -/
inductive QueueOp where
  | enqSync (recordType : String) (recordId : Nat) (action : String)
  | enqDelete (recordType : String) (bbxId : String)
deriving DecidableEq, Repr

/-- `ue_invoice.afterSubmit`: the queue writes its catch block performs
when the try body finishes with `body` (`.error` models a propagated
failure).  `connected` is the `isConnected && hasOrganization` guard and
`oldBbxId` the deleted record's stored remote id. -/
def ueInvoiceAfterSubmit (etype : UEType) (connected : Bool)
    (oldBbxId : Option String) (newId : Nat) (body : Except String Unit) :
    List QueueOp :=
  match etype with
  | .other => []
  | _ =>
    if ¬connected then []
    else
      match body with
      | .ok _ => []
      | .error _ =>
        match etype with
        | .delete =>
          match oldBbxId with
          | some b => [.enqDelete "invoice" b]
          | none => []
        | .create => [.enqSync "invoice" newId "create"]
        | .edit => [.enqSync "invoice" newId "update"]
        | .other => []

/-- `ue_customer_payment.afterSubmit`: its catch block enqueues only for
create/edit events; a failure propagating out of the DELETE branch is
logged and *not* converted into a queue entry (`// For DELETE errors, we
can't do much`). -/
def uePaymentAfterSubmit (etype : UEType) (connected : Bool) (newId : Nat)
    (body : Except String Unit) : List QueueOp :=
  match etype with
  | .other => []
  | _ =>
    if ¬connected then []
    else
      match body with
      | .ok _ => []
      | .error _ =>
        match etype with
        | .delete => []
        | .create => [.enqSync "customerpayment" newId "update"]
        | .edit => [.enqSync "customerpayment" newId "update"]
        | .other => []

/-! ## Store lemmas -/

theorem lookup_eq_none_of_fresh {α : Type} (l : List (Nat × α)) (n : Nat)
    (h : assocFresh l n = true) : l.lookup n = none := by
  induction l with
  | nil => rfl
  | cons p rest ih =>
    obtain ⟨k, v⟩ := p
    simp only [assocFresh, List.all_cons, Bool.and_eq_true, decide_eq_true_eq] at h
    have hk : (n == k) = false := by
      simp only [beq_eq_false_iff_ne, ne_eq]
      exact fun hnk => absurd (hnk ▸ h.1) (lt_irrefl n)
    simp only [List.lookup, hk]
    exact ih (by simpa [assocFresh] using h.2)

theorem lookup_append_of_none {α : Type} (l1 l2 : List (Nat × α)) (n : Nat)
    (h : l1.lookup n = none) : (l1 ++ l2).lookup n = l2.lookup n := by
  induction l1 with
  | nil => rfl
  | cons p rest ih =>
    obtain ⟨k, v⟩ := p
    simp only [List.lookup] at h ⊢
    cases hk : (n == k) with
    | true => simp [hk] at h
    | false =>
      simp only [hk] at h ⊢
      exact ih h

theorem lookup_singleton_self {α : Type} (n : Nat) (v : α) :
    ([(n, v)] : List (Nat × α)).lookup n = some v := by
  simp [List.lookup]

theorem assocFresh_removeAssoc {α : Type} (l : List (Nat × α)) (k n : Nat)
    (h : assocFresh l n = true) : assocFresh (removeAssoc l k) n = true := by
  simp only [assocFresh, List.all_eq_true] at h ⊢
  intro p hp
  exact h p (List.mem_of_mem_filter hp)

theorem lookup_updateAssoc {α : Type} (l : List (Nat × α)) (k : Nat) (v : α) :
    (updateAssoc l k v).lookup k = (l.lookup k).map (fun _ => v) := by
  induction l with
  | nil => rfl
  | cons p rest ih =>
    obtain ⟨a, b⟩ := p
    simp only [updateAssoc, List.map_cons]
    by_cases ha : a = k
    · subst ha
      rw [if_pos rfl]
      simp [List.lookup]
    · rw [if_neg ha]
      have hk : (k == a) = false := by
        simp only [beq_eq_false_iff_ne, ne_eq]
        exact fun hka => ha hka.symm
      simp only [List.lookup, hk]
      simpa [updateAssoc] using ih

theorem lookup_updatePaidAssoc (l : List (Nat × BbxInvoice)) (k : Nat)
    (amt : Int) :
    (updatePaidAssoc l k amt).lookup k =
      (l.lookup k).map (fun b => { b with paidAmount := amt }) := by
  induction l with
  | nil => rfl
  | cons p rest ih =>
    obtain ⟨a, b⟩ := p
    simp only [updatePaidAssoc, List.map_cons]
    by_cases ha : a = k
    · subst ha
      rw [if_pos rfl]
      simp [List.lookup]
    · rw [if_neg ha]
      have hk : (k == a) = false := by
        simp only [beq_eq_false_iff_ne, ne_eq]
        exact fun hka => ha hka.symm
      simp only [List.lookup, hk]
      simpa [updatePaidAssoc] using ih

/-! ## Reconciliation lemmas -/

theorem datesEqual_toDateValue (d : Option NsDate) (h : nsDateOk d = true) :
    datesEqual (toDateValue d) d = true := by
  cases d with
  | none => rfl
  | some nd =>
    simp only [nsDateOk] at h
    simp [datesEqual, toDateValue, h]

theorem invoiceHasChanged_invPayload (l : InvLocal)
    (h1 : nsDateOk l.tranDate = true) (h2 : nsDateOk l.dueDate = true) :
    invoiceHasChanged (invPayload l) l.values = false := by
  simp [invoiceHasChanged, invPayload, InvLocal.values,
        datesEqual_toDateValue _ h1, datesEqual_toDateValue _ h2]

theorem creditNoteHasChanged_cnPayload (l : CNLocal)
    (h : nsDateOk l.tranDate = true) :
    creditNoteHasChanged (cnPayload l) l.values = false := by
  simp [creditNoteHasChanged, cnPayload, CNLocal.values,
        datesEqual_toDateValue _ h]

theorem invoiceHasChanged_setPaid (b : BbxInvoice) (amt : Int) (v : InvValues) :
    invoiceHasChanged { b with paidAmount := amt } v = invoiceHasChanged b v :=
  rfl

/-! ## Synchronizer post lemmas -/

theorem syncAccount_post (c : Customer) (s : AccServer)
    (hf : assocFresh s.store s.next = true) :
    ∃ j, (syncAccount c s).cust.bbxId = some j ∧
      ((syncAccount c s).server.store.lookup j).isSome = true := by
  cases hcb : c.bbxId with
  | none =>
    refine ⟨s.next, by simp [syncAccount, hcb], ?_⟩
    simp only [syncAccount, hcb]
    rw [lookup_append_of_none _ _ _ (lookup_eq_none_of_fresh _ _ hf),
        lookup_singleton_self]
    rfl
  | some bid =>
    cases hlk : s.store.lookup bid with
    | none =>
      refine ⟨s.next, by simp [syncAccount, hcb, hlk], ?_⟩
      simp only [syncAccount, hcb, hlk]
      rw [lookup_append_of_none _ _ _ (lookup_eq_none_of_fresh _ _ hf),
          lookup_singleton_self]
      rfl
    | some v =>
      refine ⟨bid, by simp [syncAccount, hcb, hlk], ?_⟩
      simp only [syncAccount, hcb, hlk]
      rw [lookup_updateAssoc, hlk]
      rfl

/-- A second `syncAccount` right after a first one always issues an
`accounts.update` call: there is no reconciliation comparison for
accounts. -/
theorem syncAccount_twice_update (c : Customer) (s : AccServer)
    (hf : assocFresh s.store s.next = true) :
    ∃ j, (syncAccount (syncAccount c s).cust (syncAccount c s).server).events
      = [SyncEvent.accUpdate j] := by
  obtain ⟨j, hj, hlk⟩ := syncAccount_post c s hf
  obtain ⟨v, hv⟩ := Option.isSome_iff_exists.mp hlk
  refine ⟨j, ?_⟩
  generalize hr : syncAccount c s = r at hj hv ⊢
  simp [syncAccount, hj, hv]

theorem invCreateStep_post (c : Customer) (l : InvLocal) (accS : AccServer)
    (invS : InvServer) (evs : List SyncEvent)
    (hc : c.bbxId.isSome = true)
    (h1 : nsDateOk l.tranDate = true) (h2 : nsDateOk l.dueDate = true)
    (hf : assocFresh invS.store invS.next = true) :
    ∃ j b,
      ((invCreateStep c l accS invS evs).cust.bbxId).isSome = true ∧
      (invCreateStep c l accS invS evs).inv.bbxId = some j ∧
      (invCreateStep c l accS invS evs).inv.values = l.values ∧
      (invCreateStep c l accS invS evs).inv.total = l.total ∧
      (invCreateStep c l accS invS evs).inv.amountRemaining = l.amountRemaining ∧
      (invCreateStep c l accS invS evs).invServer.store.lookup j = some b ∧
      invoiceHasChanged b l.values = false ∧
      b.paidAmount = l.total - l.amountRemaining := by
  refine ⟨invS.next, invPayload l, hc, rfl, rfl, rfl, rfl, ?_, ?_, rfl⟩
  · show (invS.store ++ [(invS.next, invPayload l)]).lookup invS.next
      = some (invPayload l)
    rw [lookup_append_of_none _ _ _ (lookup_eq_none_of_fresh _ _ hf),
        lookup_singleton_self]
  · exact invoiceHasChanged_invPayload l h1 h2

theorem syncInvoice_post (c : Customer) (l : InvLocal) (accS : AccServer)
    (invS : InvServer)
    (h1 : nsDateOk l.tranDate = true) (h2 : nsDateOk l.dueDate = true)
    (hf : assocFresh invS.store invS.next = true) :
    ∃ j b,
      ((syncInvoice c l accS invS).cust.bbxId).isSome = true ∧
      (syncInvoice c l accS invS).inv.bbxId = some j ∧
      (syncInvoice c l accS invS).inv.values = l.values ∧
      (syncInvoice c l accS invS).inv.total = l.total ∧
      (syncInvoice c l accS invS).inv.amountRemaining = l.amountRemaining ∧
      (syncInvoice c l accS invS).invServer.store.lookup j = some b ∧
      invoiceHasChanged b l.values = false ∧
      b.paidAmount = l.total - l.amountRemaining := by
  have hlc : ∀ res : AccSyncResult,
      res = (match c.bbxId with
        | some _ => { cust := c, server := accS, events := [], result := 0 }
        | none => syncAccount c accS) →
      res.cust.bbxId.isSome = true := by
    intro res hres
    cases hcb : c.bbxId with
    | some a => rw [hres]; simp [hcb]
    | none => rw [hres]; simp [hcb, syncAccount]
  cases hlb : l.bbxId with
  | none =>
    cases hcb : c.bbxId with
    | some a =>
      simpa only [syncInvoice, hcb, hlb] using
        invCreateStep_post c l accS invS [] (by simp [hcb]) h1 h2 hf
    | none =>
      simpa only [syncInvoice, hcb, hlb] using
        invCreateStep_post (syncAccount c accS).cust l (syncAccount c accS).server
          invS (syncAccount c accS).events (by simp [syncAccount, hcb]) h1 h2 hf
  | some bid =>
    cases hlk : invS.store.lookup bid with
    | none =>
      cases hcb : c.bbxId with
      | some a =>
        simpa only [syncInvoice, hcb, hlb, hlk] using
          invCreateStep_post c { l with bbxId := none } accS invS _
            (by simp [hcb]) h1 h2 hf
      | none =>
        simpa only [syncInvoice, hcb, hlb, hlk] using
          invCreateStep_post (syncAccount c accS).cust { l with bbxId := none }
            (syncAccount c accS).server invS _
            (by simp [syncAccount, hcb]) h1 h2 hf
    | some bbxInv =>
      cases hch : invoiceHasChanged bbxInv l.values with
      | true =>
        have hf' : assocFresh (removeAssoc invS.store bid) invS.next = true :=
          assocFresh_removeAssoc _ _ _ hf
        cases hcb : c.bbxId with
        | some a =>
          simpa only [syncInvoice, hcb, hlb, hlk, hch] using
            invCreateStep_post c l accS
              { invS with store := removeAssoc invS.store bid } _
              (by simp [hcb]) h1 h2 hf'
        | none =>
          simpa only [syncInvoice, hcb, hlb, hlk, hch] using
            invCreateStep_post (syncAccount c accS).cust l
              (syncAccount c accS).server
              { invS with store := removeAssoc invS.store bid } _
              (by simp [syncAccount, hcb]) h1 h2 hf'
      | false =>
        by_cases hp : bbxInv.paidAmount = l.total - l.amountRemaining
        · -- unchanged: skip, return stored id
          refine ⟨bid, bbxInv, ?_, ?_, ?_, ?_, ?_, ?_, hch, hp⟩ <;>
            cases hcb : c.bbxId <;>
              simp [syncInvoice, hcb, hlb, hlk, hch, hp, syncAccount]
        · -- paid-amount-only: updatePaidAmount
          refine ⟨bid, { bbxInv with paidAmount := l.total - l.amountRemaining },
            ?_, ?_, ?_, ?_, ?_, ?_, ?_, rfl⟩ <;>
            cases hcb : c.bbxId <;>
              simp [syncInvoice, hcb, hlb, hlk, hch, hp, syncAccount,
                lookup_updatePaidAssoc, invoiceHasChanged_setPaid]

/-- Re-running `syncInvoice` immediately (no intervening local change)
issues no remote write: the stored id resolves, the reconciliation rules
classify the invoice unchanged, and the paid amount matches. -/
theorem syncInvoice_twice_noWrites (c : Customer) (l : InvLocal)
    (accS : AccServer) (invS : InvServer)
    (h1 : nsDateOk l.tranDate = true) (h2 : nsDateOk l.dueDate = true)
    (hf : assocFresh invS.store invS.next = true) :
    ((syncInvoice (syncInvoice c l accS invS).cust (syncInvoice c l accS invS).inv
        (syncInvoice c l accS invS).accServer
        (syncInvoice c l accS invS).invServer).events.filter
      SyncEvent.isRemoteWrite) = [] := by
  obtain ⟨j, b, hc, hj, hvals, htot, hrem, hlk, hch, hpaid⟩ :=
    syncInvoice_post c l accS invS h1 h2 hf
  obtain ⟨x, hx⟩ := Option.isSome_iff_exists.mp hc
  generalize hr : syncInvoice c l accS invS = r at hx hj hvals htot hrem hlk ⊢
  have hch2 : invoiceHasChanged b r.inv.values = false := by
    rw [hvals]; exact hch
  have hp2 : b.paidAmount = r.inv.total - r.inv.amountRemaining := by
    rw [htot, hrem]; exact hpaid
  simp [syncInvoice, hx, hj, hlk, hch2, hp2, SyncEvent.isRemoteWrite]

theorem cnCreateStep_post (c : Customer) (l : CNLocal) (accS : AccServer)
    (cnS : CNServer) (evs : List SyncEvent)
    (hc : c.bbxId.isSome = true)
    (h1 : nsDateOk l.tranDate = true)
    (hf : assocFresh cnS.store cnS.next = true) :
    ∃ j b,
      ((cnCreateStep c l accS cnS evs).cust.bbxId).isSome = true ∧
      (cnCreateStep c l accS cnS evs).cn.bbxId = some j ∧
      (cnCreateStep c l accS cnS evs).cn.values = l.values ∧
      (cnCreateStep c l accS cnS evs).cnServer.store.lookup j = some b ∧
      creditNoteHasChanged b l.values = false := by
  refine ⟨cnS.next, cnPayload l, hc, rfl, rfl, ?_, ?_⟩
  · show (cnS.store ++ [(cnS.next, cnPayload l)]).lookup cnS.next
      = some (cnPayload l)
    rw [lookup_append_of_none _ _ _ (lookup_eq_none_of_fresh _ _ hf),
        lookup_singleton_self]
  · exact creditNoteHasChanged_cnPayload l h1

theorem syncCreditMemo_post (c : Customer) (l : CNLocal) (accS : AccServer)
    (cnS : CNServer)
    (h1 : nsDateOk l.tranDate = true)
    (hf : assocFresh cnS.store cnS.next = true) :
    ∃ j b,
      ((syncCreditMemo c l accS cnS).cust.bbxId).isSome = true ∧
      (syncCreditMemo c l accS cnS).cn.bbxId = some j ∧
      (syncCreditMemo c l accS cnS).cn.values = l.values ∧
      (syncCreditMemo c l accS cnS).cnServer.store.lookup j = some b ∧
      creditNoteHasChanged b l.values = false := by
  cases hlb : l.bbxId with
  | none =>
    cases hcb : c.bbxId with
    | some a =>
      simpa only [syncCreditMemo, hcb, hlb] using
        cnCreateStep_post c l accS cnS [] (by simp [hcb]) h1 hf
    | none =>
      simpa only [syncCreditMemo, hcb, hlb] using
        cnCreateStep_post (syncAccount c accS).cust l (syncAccount c accS).server
          cnS (syncAccount c accS).events (by simp [syncAccount, hcb]) h1 hf
  | some bid =>
    cases hlk : cnS.store.lookup bid with
    | none =>
      cases hcb : c.bbxId with
      | some a =>
        simpa only [syncCreditMemo, hcb, hlb, hlk] using
          cnCreateStep_post c { l with bbxId := none } accS cnS _
            (by simp [hcb]) h1 hf
      | none =>
        simpa only [syncCreditMemo, hcb, hlb, hlk] using
          cnCreateStep_post (syncAccount c accS).cust { l with bbxId := none }
            (syncAccount c accS).server cnS _
            (by simp [syncAccount, hcb]) h1 hf
    | some bbxCn =>
      cases hch : creditNoteHasChanged bbxCn l.values with
      | true =>
        have hf' : assocFresh (removeAssoc cnS.store bid) cnS.next = true :=
          assocFresh_removeAssoc _ _ _ hf
        cases hcb : c.bbxId with
        | some a =>
          simpa only [syncCreditMemo, hcb, hlb, hlk, hch] using
            cnCreateStep_post c l accS
              { cnS with store := removeAssoc cnS.store bid } _
              (by simp [hcb]) h1 hf'
        | none =>
          simpa only [syncCreditMemo, hcb, hlb, hlk, hch] using
            cnCreateStep_post (syncAccount c accS).cust l
              (syncAccount c accS).server
              { cnS with store := removeAssoc cnS.store bid } _
              (by simp [syncAccount, hcb]) h1 hf'
      | false =>
        refine ⟨bid, bbxCn, ?_, ?_, ?_, ?_, hch⟩ <;>
          cases hcb : c.bbxId <;>
            simp [syncCreditMemo, hcb, hlb, hlk, hch, syncAccount]

/-- Re-running `syncCreditMemo` immediately (no intervening local change)
issues no remote write. -/
theorem syncCreditMemo_twice_noWrites (c : Customer) (l : CNLocal)
    (accS : AccServer) (cnS : CNServer)
    (h1 : nsDateOk l.tranDate = true)
    (hf : assocFresh cnS.store cnS.next = true) :
    ((syncCreditMemo (syncCreditMemo c l accS cnS).cust
        (syncCreditMemo c l accS cnS).cn
        (syncCreditMemo c l accS cnS).accServer
        (syncCreditMemo c l accS cnS).cnServer).events.filter
      SyncEvent.isRemoteWrite) = [] := by
  obtain ⟨j, b, hc, hj, hvals, hlk, hch⟩ := syncCreditMemo_post c l accS cnS h1 hf
  obtain ⟨x, hx⟩ := Option.isSome_iff_exists.mp hc
  generalize hr : syncCreditMemo c l accS cnS = r at hx hj hvals hlk ⊢
  have hch2 : creditNoteHasChanged b r.cn.values = false := by
    rw [hvals]; exact hch
  simp [syncCreditMemo, hx, hj, hlk, hch2, SyncEvent.isRemoteWrite]

/-- Every `syncContact` run issues a `contacts.upsert` call, a remote
write. -/
theorem syncContact_writes (c : Customer) (ct : NsContact) (s : AccServer)
    (uid : Nat) :
    ((syncContact c ct s uid).events.filter SyncEvent.isRemoteWrite) ≠ [] := by
  cases hcb : c.bbxId <;>
    by_cases hsame : ct.bbxContactId = some uid <;>
      simp [syncContact, hcb, hsame, syncAccount, SyncEvent.isRemoteWrite]

/-! ## Claim C1 -/

/-- C1 counterexample: an account synchronized twice in a row with no
intervening local change still issues a remote write (`accounts.update`) on
the second run, so the zero-write claim fails for the account entity kind
(the same holds for contacts, whose sync always issues `contacts.upsert`). -/
theorem claim_C1_counterexample :
    ((syncAccount (syncAccount ⟨none, "Acme", "EUR"⟩ ⟨[], 0⟩).cust
        (syncAccount ⟨none, "Acme", "EUR"⟩ ⟨[], 0⟩).server).events.filter
      SyncEvent.isRemoteWrite) ≠ [] := by decide

/-- C1 (amended): for invoices and credit notes, synchronizing twice in a
row with no intervening change to the local field values issues zero remote
write calls on the second run (idempotence via the reconciliation rules).
Accounts and contacts have no reconciliation rule: every synchronization of
an already-linked account issues an `accounts.update` write and every
contact synchronization issues a `contacts.upsert` write, so their second
run is not write-free. -/
theorem claim_C1 :
    (∀ (c : Customer) (l : InvLocal) (accS : AccServer) (invS : InvServer),
      nsDateOk l.tranDate = true → nsDateOk l.dueDate = true →
      assocFresh invS.store invS.next = true →
      ((syncInvoice (syncInvoice c l accS invS).cust
          (syncInvoice c l accS invS).inv
          (syncInvoice c l accS invS).accServer
          (syncInvoice c l accS invS).invServer).events.filter
        SyncEvent.isRemoteWrite) = []) ∧
    (∀ (c : Customer) (l : CNLocal) (accS : AccServer) (cnS : CNServer),
      nsDateOk l.tranDate = true →
      assocFresh cnS.store cnS.next = true →
      ((syncCreditMemo (syncCreditMemo c l accS cnS).cust
          (syncCreditMemo c l accS cnS).cn
          (syncCreditMemo c l accS cnS).accServer
          (syncCreditMemo c l accS cnS).cnServer).events.filter
        SyncEvent.isRemoteWrite) = []) ∧
    (∀ (c : Customer) (s : AccServer),
      assocFresh s.store s.next = true →
      ((syncAccount (syncAccount c s).cust (syncAccount c s).server).events.filter
        SyncEvent.isRemoteWrite) ≠ []) ∧
    (∀ (c : Customer) (ct : NsContact) (s : AccServer) (uid : Nat),
      ((syncContact c ct s uid).events.filter SyncEvent.isRemoteWrite) ≠ []) := by
  refine ⟨syncInvoice_twice_noWrites, syncCreditMemo_twice_noWrites, ?_,
    syncContact_writes⟩
  intro c s hf
  obtain ⟨j, hj⟩ := syncAccount_twice_update c s hf
  rw [hj]
  simp [SyncEvent.isRemoteWrite]

/-- C1 witness: the hypotheses of `claim_C1` hold at a concrete invoice
(valid dates, fresh remote store) and the conclusion follows. -/
theorem claim_C1_witness :
    (nsDateOk (some ⟨true, 2026, 1, 15, 3600⟩) = true ∧
     nsDateOk (none : Option NsDate) = true ∧
     assocFresh ([] : List (Nat × BbxInvoice)) 0 = true) ∧
    ((syncInvoice
        (syncInvoice ⟨some 3, "Acme", "EUR"⟩
          ⟨some 9, "INV-1", some ⟨true, 2026, 1, 15, 3600⟩, none, "", 100, 20, 40⟩
          ⟨[], 0⟩ ⟨[], 0⟩).cust
        (syncInvoice ⟨some 3, "Acme", "EUR"⟩
          ⟨some 9, "INV-1", some ⟨true, 2026, 1, 15, 3600⟩, none, "", 100, 20, 40⟩
          ⟨[], 0⟩ ⟨[], 0⟩).inv
        (syncInvoice ⟨some 3, "Acme", "EUR"⟩
          ⟨some 9, "INV-1", some ⟨true, 2026, 1, 15, 3600⟩, none, "", 100, 20, 40⟩
          ⟨[], 0⟩ ⟨[], 0⟩).accServer
        (syncInvoice ⟨some 3, "Acme", "EUR"⟩
          ⟨some 9, "INV-1", some ⟨true, 2026, 1, 15, 3600⟩, none, "", 100, 20, 40⟩
          ⟨[], 0⟩ ⟨[], 0⟩).invServer).events.filter
      SyncEvent.isRemoteWrite) = [] :=
  ⟨⟨by decide, by decide, by decide⟩,
    claim_C1.1 ⟨some 3, "Acme", "EUR"⟩
      ⟨some 9, "INV-1", some ⟨true, 2026, 1, 15, 3600⟩, none, "", 100, 20, 40⟩
      ⟨[], 0⟩ ⟨[], 0⟩ (by decide) (by decide) (by decide)⟩

/-! ## Claim C2 -/

/-- C2 counterexample: healing an account whose stored remote id answers
404 issues an update call (the 404 is only discovered *through* the
`accounts.update` attempt), so "zero update calls" fails for accounts. -/
theorem claim_C2_counterexample :
    ((syncAccount ⟨some 7, "Acme", "EUR"⟩ ⟨[], 0⟩).events.filter
      SyncEvent.isUpdateCall) ≠ [] := by decide

/-- C2 (amended): for an invoice (resp. credit note) whose stored remote id
answers 404 (detected by the `get` call), synchronization clears the stored
identifier, creates a new remote object and stores the returned identifier
— exactly one create call and zero update calls.  For an account the 404 is
detected by the update attempt itself, so exactly one `accounts.update`
call is issued (answered 404), followed by exactly one create; the
identifier is cleared and reassigned the same way. -/
theorem claim_C2 :
    (∀ (c : Customer) (l : InvLocal) (accS : AccServer) (invS : InvServer)
        (a bid : Nat),
      c.bbxId = some a → l.bbxId = some bid →
      invS.store.lookup bid = none →
      assocFresh invS.store invS.next = true →
      (syncInvoice c l accS invS).events
        = [.invGet bid, .clearLocalId, .invCreate, .storeLocalId invS.next] ∧
      (syncInvoice c l accS invS).inv.bbxId = some invS.next ∧
      (syncInvoice c l accS invS).invServer.store.lookup invS.next
        = some (invPayload l) ∧
      ((syncInvoice c l accS invS).events.filter SyncEvent.isCreateCall).length
        = 1 ∧
      ((syncInvoice c l accS invS).events.filter SyncEvent.isUpdateCall) = []) ∧
    (∀ (c : Customer) (l : CNLocal) (accS : AccServer) (cnS : CNServer)
        (a bid : Nat),
      c.bbxId = some a → l.bbxId = some bid →
      cnS.store.lookup bid = none →
      (syncCreditMemo c l accS cnS).events
        = [.cnGet bid, .clearLocalId, .cnCreate, .storeLocalId cnS.next] ∧
      (syncCreditMemo c l accS cnS).cn.bbxId = some cnS.next ∧
      ((syncCreditMemo c l accS cnS).events.filter SyncEvent.isCreateCall).length
        = 1 ∧
      ((syncCreditMemo c l accS cnS).events.filter SyncEvent.isUpdateCall) = []) ∧
    (∀ (c : Customer) (s : AccServer) (bid : Nat),
      c.bbxId = some bid →
      s.store.lookup bid = none →
      (syncAccount c s).events
        = [.accUpdate bid, .clearLocalId, .accCreate, .storeLocalId s.next] ∧
      (syncAccount c s).cust.bbxId = some s.next ∧
      ((syncAccount c s).events.filter SyncEvent.isCreateCall).length = 1 ∧
      ((syncAccount c s).events.filter SyncEvent.isUpdateCall)
        = [.accUpdate bid]) := by
  refine ⟨?_, ?_, ?_⟩
  · intro c l accS invS a bid hcb hlb hlk hf
    refine ⟨?_, ?_, ?_, ?_, ?_⟩ <;>
      simp only [syncInvoice, hcb, hlb, hlk, invCreateStep] <;>
      first
      | simp [SyncEvent.isCreateCall, SyncEvent.isUpdateCall]
      | (rw [show ((invPayload { l with bbxId := none })) = invPayload l from rfl,
            lookup_append_of_none _ _ _ (lookup_eq_none_of_fresh _ _ hf),
            lookup_singleton_self])
  · intro c l accS cnS a bid hcb hlb hlk
    refine ⟨?_, ?_, ?_, ?_⟩ <;>
      simp only [syncCreditMemo, hcb, hlb, hlk, cnCreateStep] <;>
      simp [SyncEvent.isCreateCall, SyncEvent.isUpdateCall]
  · intro c s bid hcb hlk
    refine ⟨?_, ?_, ?_, ?_⟩ <;>
      simp only [syncAccount, hcb, hlk] <;>
      simp [SyncEvent.isCreateCall, SyncEvent.isUpdateCall]

/-- C2 witness: the hypotheses of `claim_C2` hold at a concrete orphaned
invoice and the conclusion follows. -/
theorem claim_C2_witness :
    ((⟨some 3, "Acme", "EUR"⟩ : Customer).bbxId = some 3 ∧
     (⟨some 9, "INV-1", none, none, "", 100, 20, 40⟩ : InvLocal).bbxId = some 9 ∧
     (([] : List (Nat × BbxInvoice)).lookup 9 = none) ∧
     assocFresh ([] : List (Nat × BbxInvoice)) 0 = true) ∧
    (syncInvoice ⟨some 3, "Acme", "EUR"⟩ ⟨some 9, "INV-1", none, none, "", 100, 20, 40⟩
        ⟨[], 0⟩ ⟨[], 0⟩).events
      = [.invGet 9, .clearLocalId, .invCreate, .storeLocalId 0] :=
  ⟨⟨rfl, rfl, rfl, by decide⟩,
    (claim_C2.1 ⟨some 3, "Acme", "EUR"⟩ ⟨some 9, "INV-1", none, none, "", 100, 20, 40⟩
      ⟨[], 0⟩ ⟨[], 0⟩ 3 9 rfl rfl rfl (by decide)).1⟩

/-! ## Claim C6 -/

/-- C6: a credit note is classified unchanged exactly when number, total
amount, tax amount and issued date (compared at year/month/day granularity,
ignoring the time-of-day component) all match the stored remote snapshot;
an unchanged credit note is skipped, returning the existing remote id with
no remote write, while a changed one is deleted and recreated. -/
theorem claim_C6 :
    (∀ (bbx : BbxCreditNote) (ns : CNValues),
      creditNoteHasChanged bbx ns = false ↔
        (bbx.number = ns.tranId ∧ bbx.totalAmount = ns.total ∧
         bbx.taxAmount = ns.taxTotal ∧
         datesEqual bbx.issuedDate ns.tranDate = true)) ∧
    (∀ (b : DateValue) (y m d t : Int),
      datesEqual (some b) (some ⟨true, y, m, d, t⟩)
        = (b.year == y && b.month == m && b.day == d)) ∧
    (∀ (c : Customer) (l : CNLocal) (accS : AccServer) (cnS : CNServer)
        (a bid : Nat) (bbxCn : BbxCreditNote),
      c.bbxId = some a → l.bbxId = some bid →
      cnS.store.lookup bid = some bbxCn →
      creditNoteHasChanged bbxCn l.values = false →
      (syncCreditMemo c l accS cnS).result = bid ∧
      ((syncCreditMemo c l accS cnS).events.filter SyncEvent.isRemoteWrite) = [] ∧
      (syncCreditMemo c l accS cnS).cnServer = cnS ∧
      (syncCreditMemo c l accS cnS).cn = l) ∧
    (∀ (c : Customer) (l : CNLocal) (accS : AccServer) (cnS : CNServer)
        (a bid : Nat) (bbxCn : BbxCreditNote),
      c.bbxId = some a → l.bbxId = some bid →
      cnS.store.lookup bid = some bbxCn →
      creditNoteHasChanged bbxCn l.values = true →
      (syncCreditMemo c l accS cnS).events
        = [.cnGet bid, .cnDelete bid, .cnCreate, .storeLocalId cnS.next] ∧
      (syncCreditMemo c l accS cnS).cn.bbxId = some cnS.next) := by
  refine ⟨?_, ?_, ?_, ?_⟩
  · intro bbx ns
    constructor
    · intro h
      unfold creditNoteHasChanged at h
      split_ifs at h with h1 h2 h3 h4
      push_neg at h1 h2 h3
      refine ⟨h1, h2, h3, ?_⟩
      simpa using h4
    · rintro ⟨e1, e2, e3, e4⟩
      simp [creditNoteHasChanged, e1, e2, e3, e4]
  · intro b y m d t
    simp [datesEqual, toDateValue]
  · intro c l accS cnS a bid bbxCn hcb hlb hlk hch
    refine ⟨?_, ?_, ?_, ?_⟩ <;>
      simp [syncCreditMemo, hcb, hlb, hlk, hch, SyncEvent.isRemoteWrite]
  · intro c l accS cnS a bid bbxCn hcb hlb hlk hch
    refine ⟨?_, ?_⟩ <;>
      simp [syncCreditMemo, hcb, hlb, hlk, hch, cnCreateStep]

/-- C6 witness: the hypotheses of `claim_C6` hold at a concrete unchanged
credit note and the conclusion follows. -/
theorem claim_C6_witness :
    ((⟨some 3, "Acme", "EUR"⟩ : Customer).bbxId = some 3 ∧
     (⟨some 5, "CM-1", some ⟨true, 2026, 2, 1, 7200⟩, 50, 10⟩ : CNLocal).bbxId
        = some 5 ∧
     ([(5, ⟨"CM-1", 50, 10, some ⟨2026, 2, 1⟩⟩)] :
        List (Nat × BbxCreditNote)).lookup 5
        = some ⟨"CM-1", 50, 10, some ⟨2026, 2, 1⟩⟩ ∧
     creditNoteHasChanged ⟨"CM-1", 50, 10, some ⟨2026, 2, 1⟩⟩
        (⟨some 5, "CM-1", some ⟨true, 2026, 2, 1, 7200⟩, 50, 10⟩ : CNLocal).values
        = false) ∧
    ((syncCreditMemo ⟨some 3, "Acme", "EUR"⟩
        ⟨some 5, "CM-1", some ⟨true, 2026, 2, 1, 7200⟩, 50, 10⟩
        ⟨[], 0⟩ ⟨[(5, ⟨"CM-1", 50, 10, some ⟨2026, 2, 1⟩⟩)], 6⟩).result = 5 ∧
     ((syncCreditMemo ⟨some 3, "Acme", "EUR"⟩
        ⟨some 5, "CM-1", some ⟨true, 2026, 2, 1, 7200⟩, 50, 10⟩
        ⟨[], 0⟩ ⟨[(5, ⟨"CM-1", 50, 10, some ⟨2026, 2, 1⟩⟩)], 6⟩).events.filter
       SyncEvent.isRemoteWrite) = []) :=
  ⟨⟨rfl, rfl, by decide, by decide⟩,
    ⟨(claim_C6.2.2.1 ⟨some 3, "Acme", "EUR"⟩
        ⟨some 5, "CM-1", some ⟨true, 2026, 2, 1, 7200⟩, 50, 10⟩
        ⟨[], 0⟩ ⟨[(5, ⟨"CM-1", 50, 10, some ⟨2026, 2, 1⟩⟩)], 6⟩ 3 5
        ⟨"CM-1", 50, 10, some ⟨2026, 2, 1⟩⟩ rfl rfl (by decide) (by decide)).1,
     ((claim_C6.2.2.1 ⟨some 3, "Acme", "EUR"⟩
        ⟨some 5, "CM-1", some ⟨true, 2026, 2, 1, 7200⟩, 50, 10⟩
        ⟨[], 0⟩ ⟨[(5, ⟨"CM-1", 50, 10, some ⟨2026, 2, 1⟩⟩)], 6⟩ 3 5
        ⟨"CM-1", 50, 10, some ⟨2026, 2, 1⟩⟩ rfl rfl (by decide) (by decide)).2).1⟩⟩

/-! ## Queue lemmas -/

theorem matchesNonTerminal_update (k : String) (i : RecId) (a : String)
    (e : QEntry) (h : matchesNonTerminal k i e = true) :
    matchesNonTerminal k i { e with action := a, status := QStatus.pending }
      = true := by
  simp only [matchesNonTerminal, Bool.and_eq_true, Bool.or_eq_true] at h ⊢
  exact ⟨h.1, Or.inl rfl⟩

theorem matchesNonTerminal_newQEntry (k : String) (i : RecId) (a : String) :
    matchesNonTerminal k i (newQEntry k i a) = true := by
  simp [matchesNonTerminal, newQEntry]

theorem countNonTerminal_updateFirstMatch (q : List QEntry) (k : String)
    (i : RecId) (a : String) :
    countNonTerminal (updateFirstMatch k i a q) k i = countNonTerminal q k i := by
  induction q with
  | nil => rfl
  | cons e rest ih =>
    by_cases hm : matchesNonTerminal k i e = true
    · simp [updateFirstMatch, hm, countNonTerminal, List.filter_cons,
        matchesNonTerminal_update k i a e hm]
    · simp only [Bool.not_eq_true] at hm
      simp only [updateFirstMatch, hm, Bool.false_eq_true, if_false,
        countNonTerminal, List.filter_cons]
      simpa [countNonTerminal] using ih

theorem no_match_of_count_zero (q : List QEntry) (k : String) (i : RecId)
    (h : countNonTerminal q k i = 0) :
    ∀ e ∈ q, matchesNonTerminal k i e = false := by
  intro e he
  by_contra hne
  simp only [Bool.not_eq_false] at hne
  have : e ∈ q.filter (matchesNonTerminal k i) := List.mem_filter.mpr ⟨he, hne⟩
  rw [countNonTerminal, List.length_eq_zero] at h
  simp [h] at this

theorem updateFirstMatch_matching_entries (q : List QEntry) (k : String)
    (i : RecId) (a : String) (hc : countNonTerminal q k i ≤ 1) :
    ∀ e ∈ updateFirstMatch k i a q, matchesNonTerminal k i e = true →
      e.action = a ∧ e.status = QStatus.pending := by
  induction q with
  | nil => simp [updateFirstMatch]
  | cons x rest ih =>
    by_cases hm : matchesNonTerminal k i x = true
    · have hcount : countNonTerminal (x :: rest) k i
          = countNonTerminal rest k i + 1 := by
        simp [countNonTerminal, List.filter_cons, hm]
      have hcr : countNonTerminal rest k i = 0 := by
        rw [hcount] at hc
        omega
      intro e he hme
      simp only [updateFirstMatch, hm, if_true, List.mem_cons] at he
      rcases he with rfl | he
      · exact ⟨rfl, rfl⟩
      · rw [no_match_of_count_zero rest k i hcr e he] at hme
        exact absurd hme (by simp)
    · intro e he hme
      simp only [Bool.not_eq_true] at hm
      simp only [updateFirstMatch, hm, Bool.false_eq_true, if_false,
        List.mem_cons] at he
      rcases he with rfl | he
      · rw [hm] at hme
        exact absurd hme (by simp)
      · have hcr : countNonTerminal rest k i ≤ 1 := by
          simpa [countNonTerminal, List.filter_cons, hm] using hc
        exact ih hcr e he hme

theorem count_pos_of_any (q : List QEntry) (k : String) (i : RecId)
    (h : q.any (matchesNonTerminal k i) = true) :
    1 ≤ countNonTerminal q k i := by
  obtain ⟨e, he, hm⟩ := List.any_eq_true.mp h
  have : e ∈ q.filter (matchesNonTerminal k i) := List.mem_filter.mpr ⟨he, hm⟩
  have := List.length_pos.mpr (List.ne_nil_of_mem this)
  simpa [countNonTerminal] using this

/-! ## Claim C3 -/

/-- C3 counterexample: enqueuing a delete for the same `(kind, id)` twice
creates two `pending` queue entries — `enqueueDelete` has no dedup query,
so the at-most-one-non-terminal-entry invariant fails for delete
enqueues. -/
theorem claim_C3_counterexample :
    ¬ (countNonTerminal
        (enqueueDeleteQ (enqueueDeleteQ [] "customer" "X" "") "customer" "X" "")
        "customer" (RecId.str "X") ≤ 1) := by decide

/-- C3 (amended): `enqueueSync` dedups by `(recordType, recordId)` among
non-terminal entries — starting from a queue with at most one non-terminal
entry for the pair, after `enqueueSync` there is exactly one, and every
non-terminal entry for the pair carries the latest action with status reset
to `pending`.  `enqueueDelete`, however, always appends a fresh `pending`
entry and never dedups, so the invariant does not extend to delete
enqueues. -/
theorem claim_C3 :
    (∀ (q : List QEntry) (k : String) (i : RecId) (a : String),
      countNonTerminal q k i ≤ 1 →
      countNonTerminal (enqueueSyncQ q k i a) k i = 1 ∧
      ∀ e ∈ enqueueSyncQ q k i a, matchesNonTerminal k i e = true →
        e.action = a ∧ e.status = QStatus.pending) ∧
    (∀ (q : List QEntry) (t b acc : String),
      enqueueDeleteQ q t b acc
        = q ++ [⟨t, deleteRecId t b acc, "delete", .pending, some 0, ""⟩] ∧
      countNonTerminal (enqueueDeleteQ q t b acc) t (deleteRecId t b acc)
        = countNonTerminal q t (deleteRecId t b acc) + 1) := by
  constructor
  · intro q k i a hc
    by_cases hany : q.any (matchesNonTerminal k i) = true
    · have h1 : countNonTerminal q k i = 1 :=
        le_antisymm hc (count_pos_of_any q k i hany)
      refine ⟨?_, ?_⟩
      · rw [enqueueSyncQ, if_pos hany, countNonTerminal_updateFirstMatch, h1]
      · rw [enqueueSyncQ, if_pos hany]
        exact updateFirstMatch_matching_entries q k i a hc
    · have h0 : countNonTerminal q k i = 0 := by
        by_contra hne
        have : ∃ e ∈ q, matchesNonTerminal k i e = true := by
          have hpos : 0 < (q.filter (matchesNonTerminal k i)).length := by
            rw [countNonTerminal] at hne
            omega
          obtain ⟨e, he⟩ := List.exists_mem_of_length_pos hpos
          exact ⟨e, (List.mem_filter.mp he).1, (List.mem_filter.mp he).2⟩
        exact hany (List.any_eq_true.mpr this)
      refine ⟨?_, ?_⟩
      · rw [enqueueSyncQ, if_neg hany, countNonTerminal, List.filter_append]
        have : q.filter (matchesNonTerminal k i) = [] :=
          List.length_eq_zero.mp h0
        simp [this, matchesNonTerminal_newQEntry]
      · rw [enqueueSyncQ, if_neg hany]
        intro e he hme
        rcases List.mem_append.mp he with hq | hnew
        · rw [no_match_of_count_zero q k i h0 e hq] at hme
          exact absurd hme (by simp)
        · rcases List.mem_singleton.mp hnew with rfl
          exact ⟨rfl, rfl⟩
  · intro q t b acc
    refine ⟨rfl, ?_⟩
    rw [countNonTerminal, countNonTerminal, enqueueDeleteQ, List.filter_append]
    simp [matchesNonTerminal]

/-- C3 witness: the hypothesis of `claim_C3` holds for the empty queue and
enqueuing twice with different actions leaves exactly one entry with the
latest action. -/
theorem claim_C3_witness :
    (countNonTerminal (enqueueSyncQ [] "invoice" (.str "9") "create")
        "invoice" (.str "9") ≤ 1) ∧
    countNonTerminal
        (enqueueSyncQ (enqueueSyncQ [] "invoice" (.str "9") "create")
          "invoice" (.str "9") "update") "invoice" (.str "9") = 1 :=
  ⟨by decide,
    (claim_C3.1 (enqueueSyncQ [] "invoice" (.str "9") "create")
      "invoice" (.str "9") "update" (by decide)).1⟩

/-! ## Drain lemmas -/

theorem drainIter_succ_right (f : QEntry → Option String) (n : Nat)
    (q : List QEntry) :
    drainIter f (n + 1) q = drainRun f (drainIter f n q) := by
  induction n generalizing q with
  | zero => rfl
  | succ m ih =>
    show drainIter f (m + 1) (drainRun f q) = _
    rw [ih]
    rfl

theorem drainRun_singleton_fail (f : QEntry → Option String) (e : QEntry)
    (msg : String) (hs : selectable e = true) (hf : f e = some msg) :
    drainRun f [e] = [failUpdate e msg] := by
  simp [drainRun, hs, hf]

theorem drainIter_fail_singleton (f : QEntry → Option String)
    (hf : ∀ e, (f e).isSome = true) (e0 : QEntry)
    (h0 : e0.status = QStatus.pending) (hr : e0.retryCount = some 0) :
    ∀ n, n ≤ MAX_RETRIES →
      ∃ e, drainIter f n [e0] = [e] ∧ e.retryCount = some n ∧
        e.status = (if MAX_RETRIES ≤ n then QStatus.failed else QStatus.pending) := by
  intro n
  induction n with
  | zero =>
    intro _
    refine ⟨e0, rfl, hr, ?_⟩
    rw [if_neg (by simp [MAX_RETRIES])]
    exact h0
  | succ m ih =>
    intro hm
    obtain ⟨e, he, herc, hest⟩ := ih (Nat.le_of_succ_le hm)
    have hmlt : m < MAX_RETRIES := hm
    have hsel : selectable e = true := by
      rw [if_neg (Nat.not_le.mpr hmlt)] at hest
      simp [selectable, herc, hest, hmlt]
    obtain ⟨msg, hmsg⟩ := Option.isSome_iff_exists.mp (hf e)
    refine ⟨failUpdate e msg, ?_, ?_, ?_⟩
    · rw [drainIter_succ_right, he, drainRun_singleton_fail f e msg hsel hmsg]
    · simp [failUpdate, herc]
    · simp [failUpdate, herc]

theorem mem_drainDispatched_selectable (f : QEntry → Option String) (n : Nat)
    (q : List QEntry) (x : QEntry) (hx : x ∈ drainDispatched f n q) :
    selectable x = true := by
  induction n generalizing q with
  | zero => simp [drainDispatched] at hx
  | succ m ih =>
    simp only [drainDispatched, List.mem_append] at hx
    rcases hx with h | h
    · exact (List.mem_filter.mp h).2
    · exact ih _ h

theorem terminal_not_selectable (e : QEntry)
    (h1 : e.status = QStatus.failed) (h2 : e.retryCount = some MAX_RETRIES) :
    selectable e = false := by
  simp [selectable, h1, h2, MAX_RETRIES]

theorem mem_drainRun_of_not_selectable (f : QEntry → Option String)
    (q : List QEntry) (e : QEntry) (he : e ∈ q) (hs : selectable e = false) :
    e ∈ drainRun f q := by
  simp only [drainRun, List.mem_filterMap]
  exact ⟨e, he, by simp [hs]⟩

theorem mem_drainIter_of_not_selectable (f : QEntry → Option String) (n : Nat)
    (q : List QEntry) (e : QEntry) (he : e ∈ q) (hs : selectable e = false) :
    e ∈ drainIter f n q := by
  induction n generalizing q with
  | zero => exact he
  | succ m ih => exact ih _ (mem_drainRun_of_not_selectable f q e he hs)

/-! ## Claim C4 -/

/-- C4: an entry created by an enqueue that then fails 5 consecutive times
under the queue processor ends with status `failed` and `retryCount = 5`
and is never again selected or dispatched by any later run (it also stays
in the queue untouched); after 4 consecutive failures it is `pending` with
`retryCount = 4` and still eligible for selection. -/
theorem claim_C4 :
    (∀ (k : String) (i : RecId) (a : String) (f : QEntry → Option String),
      (∀ e, (f e).isSome = true) →
      (∃ e, drainIter f 5 [newQEntry k i a] = [e] ∧
        e.status = QStatus.failed ∧ e.retryCount = some 5 ∧
        selectable e = false) ∧
      (∃ e, drainIter f 4 [newQEntry k i a] = [e] ∧
        e.status = QStatus.pending ∧ e.retryCount = some 4 ∧
        selectable e = true)) ∧
    (∀ (e : QEntry) (f : QEntry → Option String) (n : Nat) (q : List QEntry),
      e.status = QStatus.failed → e.retryCount = some MAX_RETRIES →
      e ∉ drainDispatched f n q ∧ (e ∈ q → e ∈ drainIter f n q)) := by
  constructor
  · intro k i a f hf
    constructor
    · obtain ⟨e, he, herc, hest⟩ :=
        drainIter_fail_singleton f hf (newQEntry k i a) rfl rfl 5
          (le_refl MAX_RETRIES)
      rw [if_pos (show MAX_RETRIES ≤ 5 by decide)] at hest
      exact ⟨e, he, hest, herc, terminal_not_selectable e hest herc⟩
    · obtain ⟨e, he, herc, hest⟩ :=
        drainIter_fail_singleton f hf (newQEntry k i a) rfl rfl 4
          (by simp [MAX_RETRIES])
      rw [if_neg (show ¬ (MAX_RETRIES ≤ 4) by decide)] at hest
      refine ⟨e, he, hest, herc, ?_⟩
      simp [selectable, hest, herc, MAX_RETRIES]
  · intro e f n q h1 h2
    have hs := terminal_not_selectable e h1 h2
    refine ⟨?_, fun he => mem_drainIter_of_not_selectable f n q e he hs⟩
    intro hmem
    rw [mem_drainDispatched_selectable f n q e hmem] at hs
    exact absurd hs (by simp)

/-- C4 witness: the hypotheses of `claim_C4` hold for an always-failing
dispatcher and a concrete terminal entry. -/
theorem claim_C4_witness :
    ((∀ e : QEntry, ((fun _ => some "err") e : Option String).isSome = true) ∧
     (⟨"invoice", .str "9", "update", .failed, some 5, "err"⟩ : QEntry).status
        = QStatus.failed) ∧
    ((∃ e, drainIter (fun _ => some "err") 5
        [newQEntry "invoice" (.str "9") "update"] = [e] ∧
      e.status = QStatus.failed ∧ e.retryCount = some 5 ∧
      selectable e = false) ∧
     (⟨"invoice", .str "9", "update", .failed, some 5, "err"⟩ : QEntry) ∉
       drainDispatched (fun _ => some "err") 3
         [⟨"invoice", .str "9", "update", .failed, some 5, "err"⟩]) :=
  ⟨⟨fun _ => rfl, rfl⟩,
    ⟨(claim_C4.1 "invoice" (.str "9") "update" (fun _ => some "err")
        (fun _ => rfl)).1,
     (claim_C4.2 ⟨"invoice", .str "9", "update", .failed, some 5, "err"⟩
        (fun _ => some "err") 3
        [⟨"invoice", .str "9", "update", .failed, some 5, "err"⟩]
        rfl rfl).1⟩⟩

/-! ## Claim C5 -/

/-- C5 counterexample: a failure propagating to the top level of the
customer-payment user-event trigger on a DELETE event is logged but leaves
no sync-queue entry behind — the catch block explicitly skips enqueueing
for DELETE — refuting the claim that every propagated top-level failure is
converted into a queue entry. -/
theorem claim_C5_counterexample :
    uePaymentAfterSubmit .delete true 5 (.error "network error") = [] := rfl

/-- C5 (amended): failures propagating to the top of a user-event trigger
are caught and converted into a queue entry for the triggering entity in
the create/edit paths of the invoice and payment triggers and in the
invoice delete path (when a remote id is stored); the payment trigger's
DELETE path, however, only logs a propagated failure and enqueues
nothing. -/
theorem claim_C5 :
    (∀ (newId : Nat) (err : String) (oldBbx : Option String),
      ueInvoiceAfterSubmit .create true oldBbx newId (.error err)
        = [.enqSync "invoice" newId "create"]) ∧
    (∀ (newId : Nat) (err : String) (oldBbx : Option String),
      ueInvoiceAfterSubmit .edit true oldBbx newId (.error err)
        = [.enqSync "invoice" newId "update"]) ∧
    (∀ (newId : Nat) (err b : String),
      ueInvoiceAfterSubmit .delete true (some b) newId (.error err)
        = [.enqDelete "invoice" b]) ∧
    (∀ (newId : Nat) (err : String),
      uePaymentAfterSubmit .create true newId (.error err)
        = [.enqSync "customerpayment" newId "update"]) ∧
    (∀ (newId : Nat) (err : String),
      uePaymentAfterSubmit .edit true newId (.error err)
        = [.enqSync "customerpayment" newId "update"]) ∧
    (∀ (newId : Nat) (err : String),
      uePaymentAfterSubmit .delete true newId (.error err) = []) :=
  ⟨fun _ _ _ => rfl, fun _ _ _ => rfl, fun _ _ _ => rfl,
   fun _ _ => rfl, fun _ _ => rfl, fun _ _ => rfl⟩

/-! ## Claim C9 -/

/-- C9 (code bug evidence): the delete helpers swallow an error only when
its *message* contains the substring "404".  A genuine 404 response whose
body carries a message without that substring (here `Invoice not found`)
produces `ApiError(404, "Invoice not found")`, which the helper re-throws —
the delete does not complete successfully — while the same 404 with no
body message yields the default `API Error 404` text and is swallowed. -/
theorem claim_C9 :
    deleteOutcome (.error (mkApiError 404 (some "Invoice not found")))
      = .error ⟨"ApiError", some 404, "Invoice not found"⟩ ∧
    deleteOutcome (.error (mkApiError 404 none)) = .ok () := by
  constructor
  · simp [deleteOutcome, mkApiError, jsOr,
      show jsIncludes "Invoice not found" "404" = false from by decide]
  · simp [deleteOutcome, mkApiError, jsOr,
      show jsIncludes ("API Error " ++ toString (404 : Int)) "404" = true from by
        decide]

/-! ## API client lemmas -/

theorem isAccessTokenValid_iff (c : Conn) (m now : Int) :
    isAccessTokenValid c m now = true ↔
      ∃ tok t, c.accessToken = some tok ∧ tok ≠ "" ∧
        c.accessExpiresAt = some (some t) ∧ now < t - m * 60 * 1000 := by
  obtain ⟨atok, aexp⟩ := c
  cases atok with
  | none => simp [isAccessTokenValid]
  | some tok =>
    by_cases htok : tok = ""
    · subst htok
      simp [isAccessTokenValid]
    · cases aexp with
      | none => simp [isAccessTokenValid, htok]
      | some o =>
        cases o with
        | none => simp [isAccessTokenValid, htok]
        | some t => simp [isAccessTokenValid, htok]

theorem httpLoopFirst_head (resp : Nat → HttpResponse) (tok : Option String)
    (mr : Nat) (stored : Conn) (now : Int) (fuel attempt callIdx : Nat) :
    ((httpLoopFirst resp tok mr stored now (fuel + 1) attempt callIdx).2).head?
      = some (.http tok callIdx) := by
  simp only [httpLoopFirst]
  split_ifs <;> simp

theorem httpLoopBase_http_token (resp : Nat → HttpResponse) (tok : Option String)
    (mr : Nat) :
    ∀ (fuel attempt callIdx : Nat) (tok' : Option String) (ci : Nat),
      ReqEvent.http tok' ci ∈ (httpLoopBase resp tok mr fuel attempt callIdx).2 →
      tok' = tok := by
  intro fuel
  induction fuel with
  | zero =>
    intro attempt callIdx tok' ci h
    simp [httpLoopBase] at h
  | succ n ih =>
    intro attempt callIdx tok' ci h
    simp only [httpLoopBase] at h
    split_ifs at h with h429 hex h401 h400
    · simp at h
      exact h.1
    · simp only [List.mem_cons] at h
      rcases h with h | h | h
      · exact (by simpa using h : tok' = tok ∧ ci = callIdx).1
      · exact absurd h (by simp)
      · exact ih (attempt + 1) (callIdx + 1) tok' ci h
    · simp at h
      exact h.1
    · simp at h
      exact h.1
    · simp at h
      exact h.1

theorem httpLoopFirst_http_token (resp : Nat → HttpResponse)
    (tok : Option String) (mr : Nat) (stored : Conn) (now : Int) :
    ∀ (fuel attempt callIdx : Nat) (tok' : Option String) (ci : Nat),
      ReqEvent.http tok' ci
          ∈ (httpLoopFirst resp tok mr stored now fuel attempt callIdx).2 →
      tok' = tok ∨
        (tok' = stored.accessToken ∧ isAccessTokenValid stored 5 now = true) := by
  intro fuel
  induction fuel with
  | zero =>
    intro attempt callIdx tok' ci h
    simp [httpLoopFirst] at h
  | succ n ih =>
    intro attempt callIdx tok' ci h
    simp only [httpLoopFirst] at h
    split_ifs at h with h429 hex h401 hval h400
    · simp at h
      exact Or.inl h.1
    · simp only [List.mem_cons] at h
      rcases h with h | h | h
      · exact Or.inl (by simpa using h : tok' = tok ∧ ci = callIdx).1
      · exact absurd h (by simp)
      · exact ih (attempt + 1) (callIdx + 1) tok' ci h
    · simp only [List.mem_cons] at h
      rcases h with h | h | h
      · exact Or.inl (by simpa using h : tok' = tok ∧ ci = callIdx).1
      · exact absurd h (by simp)
      · exact Or.inr
          ⟨httpLoopBase_http_token resp stored.accessToken mr _ _ _ tok' ci h,
           hval⟩
    · simp at h
      exact Or.inl h.1
    · simp at h
      exact Or.inl h.1
    · simp at h
      exact Or.inl h.1

theorem request_http_token (current stored : Conn) (now : Int)
    (resp : Nat → HttpResponse) (mr : Nat) (tok' : Option String) (ci : Nat)
    (h : ReqEvent.http tok' ci ∈ (request current stored now resp mr).2) :
    (tok' = current.accessToken ∧ isAccessTokenValid current 5 now = true) ∨
    (tok' = stored.accessToken ∧ isAccessTokenValid stored 5 now = true) := by
  by_cases h1 : isAccessTokenValid current 5 now = true
  · simp only [request, h1, if_true] at h
    rcases httpLoopFirst_http_token resp current.accessToken mr stored now
        (mr + 1) 0 0 tok' ci h with heq | hs
    · exact Or.inl ⟨heq, h1⟩
    · exact Or.inr hs
  · by_cases h2 : isAccessTokenValid stored 5 now = true
    · simp only [request, h1, h2, Bool.false_eq_true, if_false, if_true,
        List.mem_cons] at h
      rcases h with h | h
      · exact absurd h (by simp)
      · rcases httpLoopFirst_http_token resp stored.accessToken mr stored now
            (mr + 1) 0 0 tok' ci h with heq | hs
        · exact Or.inr ⟨heq, h2⟩
        · exact Or.inr hs
    · simp only [request, h1, h2, Bool.false_eq_true, if_false] at h
      simp at h

/-! ## Claim C7 -/

/-- C7: the token gate of `#request`.  Validity means the token is present
(non-empty), the stored expiry parses, and it lies more than the 5-minute
margin past the current time.  When the current connection fails the check,
the client reloads from storage exactly once and re-checks: if the stored
connection passes, the first event after the single reload is the HTTP call
carrying the stored token; if it fails too, the call ends `TokenExpired`
after the single reload with no HTTP call made. -/
theorem claim_C7 :
    (∀ (c : Conn) (now : Int),
      isAccessTokenValid c 5 now = true ↔
        ∃ tok t, c.accessToken = some tok ∧ tok ≠ "" ∧
          c.accessExpiresAt = some (some t) ∧ now < t - 5 * 60 * 1000) ∧
    (∀ (current stored : Conn) (now : Int) (resp : Nat → HttpResponse),
      isAccessTokenValid current 5 now = false →
      isAccessTokenValid stored 5 now = false →
      request current stored now resp 3 = (.tokenExpired, [.reload])) ∧
    (∀ (current stored : Conn) (now : Int) (resp : Nat → HttpResponse),
      isAccessTokenValid current 5 now = false →
      isAccessTokenValid stored 5 now = true →
      (request current stored now resp 3).2.head? = some ReqEvent.reload ∧
      ((request current stored now resp 3).2.drop 1).head?
        = some (.http stored.accessToken 0)) := by
  refine ⟨fun c now => isAccessTokenValid_iff c 5 now, ?_, ?_⟩
  · intro current stored now resp h1 h2
    simp [request, h1, h2]
  · intro current stored now resp h1 h2
    refine ⟨by simp [request, h1, h2], ?_⟩
    simp only [request, h1, h2, Bool.false_eq_true, if_false, if_true]
    simpa using httpLoopFirst_head resp stored.accessToken 3 stored now 3 0 0

/-- C7 witness: the hypotheses of `claim_C7` hold for a connection with no
token whose storage copy is also invalid, and the call fails `TokenExpired`
after one reload with no HTTP event. -/
theorem claim_C7_witness :
    (isAccessTokenValid ⟨none, none⟩ 5 0 = false ∧
     isAccessTokenValid ⟨some "t", some none⟩ 5 0 = false) ∧
    request ⟨none, none⟩ ⟨some "t", some none⟩ 0 (fun _ => ⟨200, none, none⟩) 3
      = (.tokenExpired, [.reload]) :=
  ⟨⟨by decide, by decide⟩,
    claim_C7.2.1 ⟨none, none⟩ ⟨some "t", some none⟩ 0
      (fun _ => ⟨200, none, none⟩) (by decide) (by decide)⟩

/-! ## Claim C8 -/

/-- C8: with a valid token, four consecutive 429 responses drive the retry
loop through exactly three waits — each of `max(1000, retryAfter·1000)`
milliseconds, at least the server-directed `Retry-After` (default 60s when
the header is absent) — and four HTTP calls, after which the call fails
`RateLimited` carrying the final response's retry-after value. -/
theorem claim_C8 :
    ∀ (current stored : Conn) (now : Int) (resp : Nat → HttpResponse),
      isAccessTokenValid current 5 now = true →
      (resp 0).code = 429 → (resp 1).code = 429 →
      (resp 2).code = 429 → (resp 3).code = 429 →
      request current stored now resp 3
        = (.rateLimited (parseRetryAfter (resp 3).retryAfter),
           [.http current.accessToken 0,
            .wait (max 1000 (parseRetryAfter (resp 0).retryAfter * 1000)),
            .http current.accessToken 1,
            .wait (max 1000 (parseRetryAfter (resp 1).retryAfter * 1000)),
            .http current.accessToken 2,
            .wait (max 1000 (parseRetryAfter (resp 2).retryAfter * 1000)),
            .http current.accessToken 3]) ∧
      (∀ h : Option Int,
        parseRetryAfter h * 1000 ≤ max 1000 (parseRetryAfter h * 1000)) ∧
      parseRetryAfter none = 60 := by
  intro current stored now resp hval h0 h1 h2 h3
  refine ⟨?_, fun h => le_max_right _ _, rfl⟩
  simp [request, hval, httpLoopFirst, h0, h1, h2, h3]

/-- C8 witness: the hypotheses of `claim_C8` hold for a valid connection
receiving four 429 responses with no `Retry-After` header; the call fails
`RateLimited 60` after three 60-second waits. -/
theorem claim_C8_witness :
    (isAccessTokenValid ⟨some "t", some (some 10000000)⟩ 5 0 = true ∧
     ((fun _ => (⟨429, none, none⟩ : HttpResponse)) 0).code = 429) ∧
    request ⟨some "t", some (some 10000000)⟩ ⟨none, none⟩ 0
        (fun _ => ⟨429, none, none⟩) 3
      = (.rateLimited 60,
         [.http (some "t") 0, .wait 60000, .http (some "t") 1, .wait 60000,
          .http (some "t") 2, .wait 60000, .http (some "t") 3]) :=
  ⟨⟨by decide, rfl⟩,
    (claim_C8 ⟨some "t", some (some 10000000)⟩ ⟨none, none⟩ 0
      (fun _ => ⟨429, none, none⟩) (by decide) rfl rfl rfl rfl).1⟩

/-! ## Claim C10 -/

/-- C10: a connection with an absent (or empty) access token, an absent
expiry, or an expiry that does not parse is invalid; with both the current
and the stored connection invalid the call fails `TokenExpired` after the
single reload with no HTTP call; and every HTTP call ever issued by
`#request` carries a non-empty bearer token. -/
theorem claim_C10 :
    (∀ (e : Option (Option Int)) (now : Int),
      isAccessTokenValid ⟨none, e⟩ 5 now = false) ∧
    (∀ (e : Option (Option Int)) (now : Int),
      isAccessTokenValid ⟨some "", e⟩ 5 now = false) ∧
    (∀ (tok : String) (now : Int),
      isAccessTokenValid ⟨some tok, none⟩ 5 now = false) ∧
    (∀ (tok : String) (now : Int),
      isAccessTokenValid ⟨some tok, some none⟩ 5 now = false) ∧
    (∀ (current stored : Conn) (now : Int) (resp : Nat → HttpResponse),
      isAccessTokenValid current 5 now = false →
      isAccessTokenValid stored 5 now = false →
      request current stored now resp 3 = (.tokenExpired, [.reload])) ∧
    (∀ (current stored : Conn) (now : Int) (resp : Nat → HttpResponse)
        (mr : Nat) (tok : Option String) (ci : Nat),
      ReqEvent.http tok ci ∈ (request current stored now resp mr).2 →
      ∃ s, tok = some s ∧ s ≠ "") := by
  refine ⟨?_, ?_, ?_, ?_, ?_, ?_⟩
  · intro e now
    simp [isAccessTokenValid]
  · intro e now
    simp [isAccessTokenValid]
  · intro tok now
    by_cases h : tok = "" <;> simp [isAccessTokenValid, h]
  · intro tok now
    by_cases h : tok = "" <;> simp [isAccessTokenValid, h]
  · intro current stored now resp h1 h2
    simp [request, h1, h2]
  · intro current stored now resp mr tok ci h
    rcases request_http_token current stored now resp mr tok ci h with
      ⟨heq, hv⟩ | ⟨heq, hv⟩ <;>
    · obtain ⟨t0, te, ht1, ht2, _, _⟩ := (isAccessTokenValid_iff _ 5 now).mp hv
      exact ⟨t0, by rw [heq, ht1], ht2⟩

/-- C10 witness: the hypotheses of `claim_C10` hold for a concrete pair of
invalid connections, and the call fails `TokenExpired` with one reload and
no HTTP call. -/
theorem claim_C10_witness :
    (isAccessTokenValid ⟨some "t", some none⟩ 5 0 = false ∧
     isAccessTokenValid ⟨none, none⟩ 5 0 = false) ∧
    request ⟨some "t", some none⟩ ⟨none, none⟩ 0 (fun _ => ⟨200, none, none⟩) 3
      = (.tokenExpired, [.reload]) :=
  ⟨⟨by decide, by decide⟩,
    claim_C10.2.2.2.2.1 ⟨some "t", some none⟩ ⟨none, none⟩ 0
      (fun _ => ⟨200, none, none⟩) (by decide) (by decide)⟩

end Billabex
